import Mathlib

/-!
Verification of the test-user seeding script `scripts/setup-test-users.cjs`.

The script is shallowly embedded: JavaScript objects (`process.env`, the
parsed env-file mapping) and Firestore collections become association
lists from string keys to values with create-or-replace update semantics;
the Firestore database becomes an explicit record of two collections
threaded through the seeding routine; the awaited calls that may throw
(query, hash, document writes) are driven by an explicit failure oracle,
and the per-record try/catch of `createTestUsers` maps any failure to a
logged error entry instead of propagating it.  Console output is modelled
as lists of strings / structured log entries.
-/

namespace SetupTestUsers

/-- Association-list lookup: first binding wins, mirroring JavaScript
property access on an object built by successive assignments (we maintain
key-uniqueness via `assocSet`). -/
def assocLookup (l : List (String × α)) (k : String) : Option α :=
  match l with
  | [] => none
  | (k1, v) :: rest => if k1 == k then some v else assocLookup rest k

/-- Association-list assignment with create-or-replace semantics: models
both JavaScript object assignment `obj[k] = v` and the Firestore
`collection.doc(k).set(v)` call. -/
def assocSet (l : List (String × α)) (k : String) (v : α) : List (String × α) :=
  match l with
  | [] => [(k, v)]
  | (k1, v1) :: rest =>
      if k1 == k then (k, v) :: rest else (k1, v1) :: assocSet rest k v

/-- Membership of a key, models `k in obj` / document-id presence. -/
def assocHasKey (l : List (String × α)) (k : String) : Bool :=
  l.any (fun kv => kv.1 == k)

/-! ## String primitives

The JavaScript string operations used by the script (`split` on a
one-character separator, `trim`, `join`, `startsWith('#')`, the global
replacement of `\\n`) are embedded as structurally recursive functions
on character lists. -/

/-- JavaScript `s.split(sep)` for a one-character separator: the list of
(possibly empty) chunks between occurrences of the separator; the empty
string yields `[[]]`, matching `''.split(sep)` being `['']`. -/
def splitOnChar (sep : Char) : List Char → List (List Char)
  | [] => [[]]
  | c :: cs =>
      let r := splitOnChar sep cs
      if c = sep then [] :: r
      else
        match r with
        | [] => [[c]]
        | g :: gs => (c :: g) :: gs

/-- Whitespace as removed by JavaScript `trim` (the ASCII cases). -/
def isJsWhitespace (c : Char) : Bool :=
  c == ' ' || c == '\t' || c == '\n' || c == '\r' || c == '\x0b' || c == '\x0c'

/-- JavaScript `s.trim()`: drop leading and trailing whitespace. -/
def trimList (l : List Char) : List Char :=
  ((l.dropWhile isJsWhitespace).reverse.dropWhile isJsWhitespace).reverse

/-- JavaScript `parts.join(sep)` for a one-character separator. -/
def intercalateChar (sep : Char) : List (List Char) → List Char
  | [] => []
  | [x] => x
  | x :: rest => x ++ sep :: intercalateChar sep rest

/-- JavaScript `key.startsWith('#')`. -/
def startsWithHash : List Char → Bool
  | '#' :: _ => true
  | _ => false

/-- JavaScript `s.replace(/\\n/g, "\n")`: left-to-right non-overlapping
replacement of the two-character sequence backslash-n by a newline. -/
def unescapeNewlines : List Char → List Char
  | '\\' :: 'n' :: rest => '\n' :: unescapeNewlines rest
  | c :: rest => c :: unescapeNewlines rest
  | [] => []

/-! ## Configuration loader (`loadEnvFile`, lines 3-26 of the script) -/

/-- One pass of the `forEach` body of `loadEnvFile`: split the line on
every `=`, keep it only when the part before the first `=` is nonempty,
at least one `=` is present, the re-joined remainder is nonempty after
trimming, and the part before the first `=` does not start with `#`;
store the trimmed value under the trimmed key. -/
def envLineStep (acc : List (String × String)) (line : List Char) :
    List (String × String) :=
  match splitOnChar '=' line with
  | [] => acc
  | key :: valueParts =>
      if key ≠ [] ∧ valueParts ≠ [] then
        let value := trimList (intercalateChar '=' valueParts)
        if value ≠ [] ∧ ¬ startsWithHash key then
          assocSet acc (String.mk (trimList key)) (String.mk value)
        else acc
      else acc

/-- The parsing core of `loadEnvFile`: split the file content on newlines
and fold `envLineStep` over the lines, starting from the empty object. -/
def parseEnvContent (content : String) : List (String × String) :=
  (splitOnChar '\n' content.toList).foldl envLineStep []

/-- `loadEnvFile`: the file system is modelled by an optional file
content (`none` when `fs.existsSync` is false).  Returns the parsed
mapping together with the diagnostic lines written to the console; a
missing file yields the empty mapping and a diagnostic, and no exception
escapes (the function is total). -/
def loadEnvFile (file : Option String) :
    List (String × String) × List String :=
  match file with
  | none => ([], ["❌ .env file not found"])
  | some content => (parseEnvContent content, [])

/-- `Object.assign(process.env, env)`: copy every binding of the parsed
mapping into the ambient environment in order, overwriting any existing
binding with the same key. -/
def mergeEnv (ambient fileVars : List (String × String)) :
    List (String × String) :=
  fileVars.foldl (fun acc kv => assocSet acc kv.1 kv.2) ambient

/-! ## Data model: the fixed seed-user records (lines 66-115) -/

/-- The profile-data object (`user.data` in the script).  The three
records carry different field sets, modelled with optional fields; the
`new Date()` timestamp is abstracted by a natural number supplied by the
caller. -/
structure UserData where
  id : String
  email : String
  role : String
  walletAddress : String
  displayName : Option String := none
  isVerified : Option Bool := none
  businessName : Option String := none
  category : Option String := none
  description : Option String := none
  isApproved : Option Bool := none
  uid : Option String := none
  createdAt : Nat
  deriving Repr, DecidableEq

/-- A persisted document: the spread `{ ...user.data, password: hashed }`
of the script, i.e. the profile data extended with the password field. -/
structure UserDoc where
  data : UserData
  password : String
  deriving Repr, DecidableEq

/-- One entry of the hard-coded `testUsers` array. -/
structure SeedUser where
  email : String
  password : String
  displayName : String
  role : String
  uid : String
  data : UserData
  deriving Repr, DecidableEq

/-- The fixed `testUsers` list; `now` stands for the `new Date()`
timestamps taken at module load. -/
def testUsers (now : Nat) : List SeedUser :=
  [ { email := "admin@eventnft.app"
      password := "Admin123!"
      displayName := "Admin User"
      role := "admin"
      uid := "admin-user-001"
      data := { id := "admin-user-001"
                email := "admin@eventnft.app"
                displayName := some "Admin User"
                role := "admin"
                walletAddress := "ADMIN_WALLET_ADDRESS"
                isVerified := some true
                createdAt := now } }
  , { email := "merchant@eventnft.app"
      password := "Merchant123!"
      displayName := "Event Organizer"
      role := "merchant"
      uid := "merchant-user-001"
      data := { id := "merchant-user-001"
                businessName := some "Music Festival Co."
                email := "merchant@eventnft.app"
                category := some "Entertainment"
                description := some "Leading music festival organizer"
                walletAddress := "MERCHANT_WALLET_ADDRESS"
                isApproved := some true
                uid := some "merchant-user-001"
                role := "merchant"
                createdAt := now } }
  , { email := "user@eventnft.app"
      password := "User123!"
      displayName := "Regular User"
      role := "user"
      uid := "regular-user-001"
      data := { id := "regular-user-001"
                email := "user@eventnft.app"
                displayName := some "Regular User"
                role := "user"
                walletAddress := "USER_WALLET_ADDRESS"
                isVerified := some true
                createdAt := now } }
  ]

/-! ## The Firestore store and the seeding routine (lines 117-148) -/

/-- The two collections touched by the script, each a key-addressed
document collection. -/
structure Firestore where
  users : List (String × UserDoc)
  merchants : List (String × UserDoc)
  deriving Repr, DecidableEq

/-- The empty store. -/
def emptyStore : Firestore := { users := [], merchants := [] }

/-- The awaited operations inside the per-record try block, each of which
may throw; a failure oracle selects which ones do. -/
inductive DbOp where
  | queryUsersByEmail (email : String)
  | hashOp (password : String)
  | setUser (uid : String)
  | setMerchant (uid : String)
  deriving Repr, DecidableEq

/-- The oracle under which no awaited operation throws. -/
def noFail : DbOp → Bool := fun _ => false

/-- Console lines produced per record by `createTestUsers`. -/
inductive LogEntry where
  | created (role email : String)
  | alreadyExists (email : String)
  | failed (email : String)
  deriving Repr, DecidableEq

/-- The email a log entry reports, present in every branch of the
script (template literals on `user.email`). -/
def LogEntry.email : LogEntry → String
  | .created _ e => e
  | .alreadyExists e => e
  | .failed e => e

/-- The `where('email','==',email).get()` query over the users
collection: all documents whose email field equals the given email. -/
def queryUsersByEmail (db : Firestore) (email : String) :
    List (String × UserDoc) :=
  db.users.filter (fun kv => kv.2.data.email == email)

/-- `hashPassword` (lines 63-65): `bcrypt.hash(password, 12)`.  The
bcrypt library is an external collaborator, abstracted by a function
argument; the script fixes the work factor at 12. -/
def hashPassword (bcryptHash : String → Nat → String) (password : String) :
    String :=
  bcryptHash password 12

/-- The body of the per-record loop of `createTestUsers`, including the
try/catch: each awaited operation consults the failure oracle, and a
throw at any point is caught and becomes a `.failed` log entry with the
record email, keeping every store mutation already awaited (in
particular a users write that preceded a failing merchants write). -/
def processUser (hash : String → String) (fails : DbOp → Bool)
    (db : Firestore) (u : SeedUser) : Firestore × LogEntry :=
  if fails (.queryUsersByEmail u.email) then (db, .failed u.email)
  else
    let existing := queryUsersByEmail db u.email
    if existing.isEmpty then
      if fails (.hashOp u.password) then (db, .failed u.email)
      else
        let hashedPassword := hash u.password
        let userData : UserDoc := { data := u.data, password := hashedPassword }
        if fails (.setUser u.uid) then (db, .failed u.email)
        else
          let db1 : Firestore :=
            { db with users := assocSet db.users u.uid userData }
          if u.role == "merchant" then
            if fails (.setMerchant u.uid) then (db1, .failed u.email)
            else
              ({ db1 with merchants := assocSet db1.merchants u.uid userData },
               .created u.role u.email)
          else (db1, .created u.role u.email)
    else (db, .alreadyExists u.email)

/-- The sequential `for (const user of testUsers)` loop, threading the
store and collecting one log entry per record in input order. -/
def seedUsers (hash : String → String) (fails : DbOp → Bool) :
    List SeedUser → Firestore → Firestore × List LogEntry
  | [], db => (db, [])
  | u :: us, db =>
      let r1 := processUser hash fails db u
      let r2 := seedUsers hash fails us r1.1
      (r2.1, r1.2 :: r2.2)

/-- `createTestUsers`: run the loop over the fixed record list. -/
def createTestUsers (hash : String → String) (fails : DbOp → Bool)
    (now : Nat) (db : Firestore) : Firestore × List LogEntry :=
  seedUsers hash fails (testUsers now) db

/-! ## Credential report (`displayCredentials`, lines 151-176) -/

/-- The value printed after `Admin Key: `, i.e.
`process.env.ADMIN_MASTER_KEY || 'admin123'`: JavaScript `||` takes the
default both when the variable is absent and when it is the empty string
(the only falsy string). -/
def adminMasterKeyShown (env : List (String × String)) : String :=
  match assocLookup env "ADMIN_MASTER_KEY" with
  | none => "admin123"
  | some v => if v == "" then "admin123" else v

/-- `displayCredentials`: the exact sequence of console lines, one list
element per `console.log` call. -/
def displayCredentials (env : List (String × String)) : List String :=
  [ "\n🔐 TEST CREDENTIALS"
  , "==================\n"
  , "🔴 ADMIN ACCESS:"
  , "   Email: admin@eventnft.app"
  , "   Password: Admin123!"
  , "   Admin Key: " ++ adminMasterKeyShown env
  , "   URL: http://localhost:3000/auth/admin\n"
  , "🔵 MERCHANT ACCESS:"
  , "   Email: merchant@eventnft.app"
  , "   Password: Merchant123!"
  , "   URL: http://localhost:3000/auth/merchant\n"
  , "🟢 USER ACCESS:"
  , "   Email: user@eventnft.app"
  , "   Password: User123!"
  , "   URL: http://localhost:3000/auth/user\n"
  , "📝 NOTES:"
  , "- All passwords are now securely hashed using bcrypt"
  , "- JWT tokens are used for session management"
  , "- HTTP-only cookies provide secure authentication"
  , "- Use these credentials to test the new authentication system"
  ]

/-! ## Whole-script execution (bootstrap lines 40-61, `main` lines 179-195) -/

/-- Result of one process run of the script: the exit code, the final
store, the per-record log, and the credential-report lines (empty when
the process exited before reaching them). -/
structure RunResult where
  exitCode : Nat
  db : Firestore
  logs : List LogEntry
  output : List String
  deriving Repr, DecidableEq

/-- The `main` routine (lines 179-189): seed, then print the report.
Every fallible awaited operation sits inside the per-record try/catch of
`createTestUsers`, so no error reaches the top-level catch and the
process ends with exit code 0 for every failure oracle. -/
def main (hash : String → String) (fails : DbOp → Bool) (now : Nat)
    (db : Firestore) (env : List (String × String)) : RunResult :=
  let r := createTestUsers hash fails now db
  { exitCode := 0, db := r.1, logs := r.2, output := displayCredentials env }

/-- One process run of the script in a fresh process (`getApps()` empty).
The settings file is `envFile` (`none` when absent); `ambient` is the
initial `process.env`.  The external credential validation and
connection performed by `cert` / `initializeApp` / `getFirestore` is an
oracle `certOk` over the project id, the client email and the unescaped
private key.  When `FIREBASE_PRIVATE_KEY` is absent the script itself
throws (`.replace` on `undefined`), which the bootstrap catch turns into
`process.exit(1)`; a rejected credential likewise exits with 1 before
any seeding.  Otherwise `main` runs. -/
def runScript (envFile : Option String) (ambient : List (String × String))
    (certOk : Option String → Option String → String → Bool)
    (hash : String → String) (fails : DbOp → Bool) (now : Nat)
    (db : Firestore) : RunResult :=
  let env := mergeEnv ambient (loadEnvFile envFile).1
  match assocLookup env "FIREBASE_PRIVATE_KEY" with
  | none => { exitCode := 1, db := db, logs := [], output := [] }
  | some pk =>
      if certOk (assocLookup env "FIREBASE_PROJECT_ID")
          (assocLookup env "FIREBASE_CLIENT_EMAIL")
          (String.mk (unescapeNewlines pk.toList)) then
        main hash fails now db env
      else { exitCode := 1, db := db, logs := [], output := [] }

/-! ## Spec-side parser, for comparison with `parseEnvContent` -/

/-- The entry a single line contributes according to the amended
configuration-loader description: a line is kept exactly when the text
before its first `=` is nonempty and does not begin with `#`, the line
contains an `=`, and the text after the first `=` is nonempty after
trimming; the kept entry maps the trimmed key to the trimmed remainder
re-joined on `=` (only the first `=` splits key from value). -/
def envLineEntry (line : List Char) : Option (String × String) :=
  match splitOnChar '=' line with
  | [] => none
  | key :: valueParts =>
      if valueParts = [] then none
      else
        let value := trimList (intercalateChar '=' valueParts)
        if key = [] ∨ startsWithHash key ∨ value = [] then none
        else some (String.mk (trimList key), String.mk value)

/-- The amended loader contract as a whole: collect the entries of the
kept lines in order and build the mapping with later lines overwriting
earlier ones of equal key. -/
def specParseEnv (content : String) : List (String × String) :=
  ((splitOnChar '\n' content.toList).filterMap envLineEntry).foldl
    (fun acc kv => assocSet acc kv.1 kv.2) []

/-! ## Derived notions used by the statements -/

/-- One re-invocation of the script against the same backing store with
no operation failing: the store left by `createTestUsers`. -/
def rerunStore (hash : String → String) (now : Nat) (db : Firestore) :
    Firestore :=
  (createTestUsers hash noFail now db).1

/-- Failure scenario: the users-collection write of the first record
(the admin record) throws; every other operation succeeds. -/
def failFirstWrite : DbOp → Bool
  | .setUser uid => uid == "admin-user-001"
  | _ => false

/-- Failure scenario: the merchants-collection mirror write of the
merchant record throws; every other operation succeeds. -/
def failMerchantMirror : DbOp → Bool
  | .setMerchant uid => uid == "merchant-user-001"
  | _ => false

/-- Invariant of the users collection maintained by the seeder: every
document is the profile data of one of the fixed records, stored under
the uid of that record, and document keys are pairwise distinct. -/
def storeInv (now : Nat) (db : Firestore) : Prop :=
  (∀ kv ∈ db.users, ∃ u ∈ testUsers now, kv.1 = u.uid ∧ kv.2.data = u.data) ∧
  (db.users.map Prod.fst).Nodup

/-- Stores reachable from the empty store by complete seeder runs, with
an arbitrary hash function and an arbitrary failure oracle each time. -/
inductive Reachable (now : Nat) : Firestore → Prop where
  | empty : Reachable now emptyStore
  | step (hash : String → String) (fails : DbOp → Bool) (db : Firestore) :
      Reachable now db → Reachable now (createTestUsers hash fails now db).1

/-! # Theorems -/

/-! ## Association-list lemmas -/

theorem assocLookup_assocSet_self (l : List (String × α)) (k : String) (v : α) :
    assocLookup (assocSet l k v) k = some v := by
  induction l with
  | nil => simp [assocSet, assocLookup]
  | cons kv rest ih =>
      obtain ⟨k1, v1⟩ := kv
      by_cases h : k1 = k
      · simp [assocSet, assocLookup, h]
      · simpa [assocSet, assocLookup, h] using ih

theorem assocLookup_assocSet_ne (l : List (String × α)) (k1 k : String) (v : α)
    (h : k1 ≠ k) : assocLookup (assocSet l k1 v) k = assocLookup l k := by
  induction l with
  | nil => simp [assocSet, assocLookup, h]
  | cons kv rest ih =>
      obtain ⟨k2, v2⟩ := kv
      simp only [assocSet]
      split
      case isTrue hbe =>
        have hk2 : k2 = k1 := by simpa using hbe
        simp [assocLookup, h, hk2]
      case isFalse hbe =>
        by_cases hc : k2 = k
        · simp [assocLookup, hc]
        · simp [assocLookup, hc, ih]

theorem mem_assocSet (l : List (String × α)) (k : String) (v : α) (kv : String × α)
    (h : kv ∈ assocSet l k v) : kv ∈ l ∨ kv = (k, v) := by
  induction l with
  | nil => simpa [assocSet] using h
  | cons kv1 rest ih =>
      obtain ⟨k1, v1⟩ := kv1
      simp only [assocSet] at h
      split at h
      case isTrue hbe =>
        rcases List.mem_cons.mp h with h | h
        · exact Or.inr h
        · exact Or.inl (List.mem_cons_of_mem _ h)
      case isFalse hbe =>
        rcases List.mem_cons.mp h with h | h
        · exact Or.inl (by simp [h])
        · rcases ih h with h | h
          · exact Or.inl (List.mem_cons_of_mem _ h)
          · exact Or.inr h

theorem mem_assocSet_of_mem_ne (l : List (String × α)) (k : String) (v : α)
    (kv : String × α) (hm : kv ∈ l) (hne : kv.1 ≠ k) : kv ∈ assocSet l k v := by
  induction l with
  | nil => cases hm
  | cons kv1 rest ih =>
      obtain ⟨k1, v1⟩ := kv1
      simp only [assocSet]
      split
      case isTrue hbe =>
        have hk1 : k1 = k := by simpa using hbe
        rcases List.mem_cons.mp hm with h | h
        · exact absurd (by simp [h, hk1]) hne
        · exact List.mem_cons_of_mem _ h
      case isFalse hbe =>
        rcases List.mem_cons.mp hm with h | h
        · exact List.mem_cons.mpr (Or.inl h)
        · exact List.mem_cons_of_mem _ (ih h)

theorem assocSet_of_not_key (l : List (String × α)) (k : String) (v : α)
    (h : ∀ kv ∈ l, kv.1 ≠ k) : assocSet l k v = l ++ [(k, v)] := by
  induction l with
  | nil => simp [assocSet]
  | cons kv1 rest ih =>
      obtain ⟨k1, v1⟩ := kv1
      have hk1 : k1 ≠ k := h (k1, v1) (List.mem_cons_self _ _)
      simp only [assocSet]
      split
      case isTrue hbe => exact absurd (by simpa using hbe) hk1
      case isFalse hbe =>
        simp only [List.cons_append, List.cons.injEq, true_and]
        exact ih fun kv hm => h kv (List.mem_cons_of_mem _ hm)

/-! ## Configuration-loader lemmas -/

theorem envLineStep_eq_entry (acc : List (String × String)) (line : List Char) :
    envLineStep acc line =
      match envLineEntry line with
      | none => acc
      | some kv => assocSet acc kv.1 kv.2 := by
  unfold envLineStep envLineEntry
  cases hs : splitOnChar '=' line with
  | nil => rfl
  | cons key valueParts =>
      by_cases h1 : valueParts = []
      · simp [h1]
      · by_cases h2 : key = []
        · simp [h1, h2]
        · by_cases h3 : trimList (intercalateChar '=' valueParts) = []
          · simp [h1, h2, h3]
          · by_cases h4 : startsWithHash key
            · simp [h1, h2, h3, h4]
            · simp [h1, h2, h3, h4]

theorem foldl_envLineStep (lines : List (List Char))
    (acc : List (String × String)) :
    lines.foldl envLineStep acc =
      (lines.filterMap envLineEntry).foldl
        (fun a kv => assocSet a kv.1 kv.2) acc := by
  induction lines generalizing acc with
  | nil => rfl
  | cons line rest ih =>
      rw [List.foldl_cons, envLineStep_eq_entry]
      cases he : envLineEntry line with
      | none => simp only [he, List.filterMap_cons_none he, ih]
      | some kv =>
          rw [ih, List.filterMap_cons]
          simp only [he, List.foldl_cons]

theorem mergeEnv_not_key (ambient fileVars : List (String × String))
    (k : String) (h : k ∉ fileVars.map Prod.fst) :
    assocLookup (mergeEnv ambient fileVars) k = assocLookup ambient k := by
  induction fileVars generalizing ambient with
  | nil => rfl
  | cons kv rest ih =>
      obtain ⟨k1, v1⟩ := kv
      simp only [List.map_cons, List.mem_cons] at h
      push_neg at h
      have hstep : mergeEnv ambient ((k1, v1) :: rest) =
          mergeEnv (assocSet ambient k1 v1) rest := rfl
      rw [hstep, ih _ h.2, assocLookup_assocSet_ne _ _ _ _ (Ne.symm h.1)]

theorem mergeEnv_mem (ambient fileVars : List (String × String))
    (k : String) (v : String) (hnd : (fileVars.map Prod.fst).Nodup)
    (hm : (k, v) ∈ fileVars) :
    assocLookup (mergeEnv ambient fileVars) k = some v := by
  induction fileVars generalizing ambient with
  | nil => cases hm
  | cons kv rest ih =>
      obtain ⟨k1, v1⟩ := kv
      simp only [List.map_cons, List.nodup_cons] at hnd
      have hstep : mergeEnv ambient ((k1, v1) :: rest) =
          mergeEnv (assocSet ambient k1 v1) rest := rfl
      rcases List.mem_cons.mp hm with h | h
      · have hk : k = k1 := congrArg Prod.fst h
        have hv : v = v1 := congrArg Prod.snd h
        subst hk; subst hv
        rw [hstep, mergeEnv_not_key _ _ _ hnd.1]
        exact assocLookup_assocSet_self _ _ _
      · rw [hstep]
        exact ih _ hnd.2 h

/-! ## Claim theorems: configuration loader -/

/-- C5 counterexample: the line `A=` contains an `=` separator and does
not begin with `#`, so by the claim it should yield one mapping entry,
yet the loader produces the empty mapping (the value is empty after
trimming and JavaScript truthiness drops it). -/
theorem env_parsing_counterexample :
    startsWithHash ("A=".toList) = false ∧
    (splitOnChar '=' "A=".toList).length = 2 ∧
    parseEnvContent "A=" = [] := by
  decide

/-- C5 amended: the loader produces a mapping with at most one entry per
line, keeping a line exactly when the text before its first `=` is
nonempty and does not begin with `#`, the line contains an `=`, and the
text after the first `=` is nonempty after trimming; a kept line maps
its trimmed key to the trimmed remainder re-joined on `=` (so only the
first `=` splits key from value, and values may contain `=`), with later
lines overwriting earlier ones of equal key. -/
theorem env_parsing_amended (content : String) :
    parseEnvContent content = specParseEnv content := by
  unfold parseEnvContent specParseEnv
  exact foldl_envLineStep _ _

/-- C6 counterexample: an ambient entry whose key also appears in the
settings file does not keep its ambient value: `Object.assign` replaces
it with the value from the file. -/
theorem merge_overwrite_counterexample :
    assocLookup [("ADMIN_MASTER_KEY", "ambient-key")] "ADMIN_MASTER_KEY"
      = some "ambient-key" ∧
    assocLookup
        (mergeEnv [("ADMIN_MASTER_KEY", "ambient-key")]
          [("ADMIN_MASTER_KEY", "file-key")]) "ADMIN_MASTER_KEY"
      = some "file-key" := by
  decide

/-- C6 amended: merging the loader mapping into the ambient
configuration leaves unchanged every ambient entry whose key does not
appear in the file mapping, while entries of the file mapping take
precedence over ambient entries of the same key (the merge is
last-write-wins in favour of the settings file). -/
theorem merge_env_amended (ambient fileVars : List (String × String))
    (k : String) :
    (k ∉ fileVars.map Prod.fst →
      assocLookup (mergeEnv ambient fileVars) k = assocLookup ambient k) ∧
    (∀ v, (fileVars.map Prod.fst).Nodup → (k, v) ∈ fileVars →
      assocLookup (mergeEnv ambient fileVars) k = some v) :=
  ⟨fun h => mergeEnv_not_key ambient fileVars k h,
   fun v hnd hm => mergeEnv_mem ambient fileVars k v hnd hm⟩

/-- Witness for the amended C6 theorem at a concrete ambient
configuration and file mapping. -/
theorem merge_env_amended_witness :
    assocLookup (mergeEnv [("A", "1")] [("B", "2")]) "A" = some "1" ∧
    assocLookup (mergeEnv [("A", "1")] [("B", "2")]) "B" = some "2" :=
  ⟨(merge_env_amended [("A", "1")] [("B", "2")] "A").1 (by decide),
   (merge_env_amended [("A", "1")] [("B", "2")] "B").2 "2" (by decide) (by decide)⟩

/-- C7: when the settings file is absent the loader returns the empty
mapping together with the diagnostic line and returns normally (it is a
total function, so no exception escapes), and merging the empty mapping
leaves the ambient configuration exactly as it was, so ambient
configuration alone feeds the database bootstrap. -/
theorem missing_env_file_nonfatal (ambient : List (String × String)) :
    loadEnvFile none = ([], ["❌ .env file not found"]) ∧
    mergeEnv ambient (loadEnvFile none).1 = ambient :=
  ⟨rfl, rfl⟩

/-! ## Seeder lemmas -/

theorem seedUsers_cons (hash : String → String) (fails : DbOp → Bool)
    (u : SeedUser) (us : List SeedUser) (db : Firestore) :
    seedUsers hash fails (u :: us) db =
      ((seedUsers hash fails us (processUser hash fails db u).1).1,
       (processUser hash fails db u).2 ::
         (seedUsers hash fails us (processUser hash fails db u).1).2) := rfl

theorem processUser_users_cases (hash : String → String) (fails : DbOp → Bool)
    (db : Firestore) (u : SeedUser) :
    (processUser hash fails db u).1.users = db.users ∨
    (queryUsersByEmail db u.email = [] ∧
      (processUser hash fails db u).1.users =
        assocSet db.users u.uid { data := u.data, password := hash u.password }) := by
  by_cases h1 : fails (DbOp.queryUsersByEmail u.email)
  · exact Or.inl (by simp [processUser, h1])
  by_cases h2 : (queryUsersByEmail db u.email).isEmpty
  case neg => exact Or.inl (by simp [processUser, h1, h2])
  have hq : queryUsersByEmail db u.email = [] := by simpa using h2
  by_cases h3 : fails (DbOp.hashOp u.password)
  · exact Or.inl (by simp [processUser, h1, h2, h3])
  by_cases h4 : fails (DbOp.setUser u.uid)
  · exact Or.inl (by simp [processUser, h1, h2, h3, h4])
  by_cases h5 : u.role == "merchant"
  · by_cases h6 : fails (DbOp.setMerchant u.uid)
    · exact Or.inr ⟨hq, by simp [processUser, h1, h2, h3, h4, h5, h6]⟩
    · exact Or.inr ⟨hq, by simp [processUser, h1, h2, h3, h4, h5, h6]⟩
  · exact Or.inr ⟨hq, by simp [processUser, h1, h2, h3, h4, h5]⟩

theorem processUser_merchants_cases (hash : String → String)
    (fails : DbOp → Bool) (db : Firestore) (u : SeedUser) :
    (processUser hash fails db u).1.merchants = db.merchants ∨
    (u.role = "merchant" ∧
      (processUser hash fails db u).1.merchants =
        assocSet db.merchants u.uid { data := u.data, password := hash u.password }) := by
  by_cases h1 : fails (DbOp.queryUsersByEmail u.email)
  · exact Or.inl (by simp [processUser, h1])
  by_cases h2 : (queryUsersByEmail db u.email).isEmpty
  case neg => exact Or.inl (by simp [processUser, h1, h2])
  by_cases h3 : fails (DbOp.hashOp u.password)
  · exact Or.inl (by simp [processUser, h1, h2, h3])
  by_cases h4 : fails (DbOp.setUser u.uid)
  · exact Or.inl (by simp [processUser, h1, h2, h3, h4])
  by_cases h5 : u.role == "merchant"
  · by_cases h6 : fails (DbOp.setMerchant u.uid)
    · exact Or.inl (by simp [processUser, h1, h2, h3, h4, h5, h6])
    · exact Or.inr ⟨by simpa using h5,
        by simp [processUser, h1, h2, h3, h4, h5, h6]⟩
  · exact Or.inl (by simp [processUser, h1, h2, h3, h4, h5])

theorem processUser_log_email (hash : String → String) (fails : DbOp → Bool)
    (db : Firestore) (u : SeedUser) :
    ((processUser hash fails db u).2).email = u.email := by
  by_cases h1 : fails (DbOp.queryUsersByEmail u.email)
  · simp [processUser, LogEntry.email, h1]
  by_cases h2 : (queryUsersByEmail db u.email).isEmpty
  case neg => simp [processUser, LogEntry.email, h1, h2]
  by_cases h3 : fails (DbOp.hashOp u.password)
  · simp [processUser, LogEntry.email, h1, h2, h3]
  by_cases h4 : fails (DbOp.setUser u.uid)
  · simp [processUser, LogEntry.email, h1, h2, h3, h4]
  by_cases h5 : u.role == "merchant"
  · by_cases h6 : fails (DbOp.setMerchant u.uid)
    · simp [processUser, LogEntry.email, h1, h2, h3, h4, h5, h6]
    · simp [processUser, LogEntry.email, h1, h2, h3, h4, h5, h6]
  · simp [processUser, LogEntry.email, h1, h2, h3, h4, h5]

theorem processUser_users_mem (hash : String → String) (fails : DbOp → Bool)
    (db : Firestore) (u : SeedUser) (kv : String × UserDoc)
    (h : kv ∈ (processUser hash fails db u).1.users) :
    kv ∈ db.users ∨
      kv = (u.uid, { data := u.data, password := hash u.password }) := by
  rcases processUser_users_cases hash fails db u with hc | ⟨_, hc⟩
  · exact Or.inl (hc ▸ h)
  · exact mem_assocSet _ _ _ _ (hc ▸ h)

theorem processUser_merchants_mem (hash : String → String)
    (fails : DbOp → Bool) (db : Firestore) (u : SeedUser) (kv : String × UserDoc)
    (h : kv ∈ (processUser hash fails db u).1.merchants) :
    kv ∈ db.merchants ∨
      (u.role = "merchant" ∧
        kv = (u.uid, { data := u.data, password := hash u.password })) := by
  rcases processUser_merchants_cases hash fails db u with hc | ⟨hr, hc⟩
  · exact Or.inl (hc ▸ h)
  · rcases mem_assocSet _ _ _ _ (hc ▸ h) with h | h
    · exact Or.inl h
    · exact Or.inr ⟨hr, h⟩

theorem seedUsers_users_mem (hash : String → String) (fails : DbOp → Bool)
    (us : List SeedUser) (db : Firestore) (kv : String × UserDoc)
    (h : kv ∈ (seedUsers hash fails us db).1.users) :
    kv ∈ db.users ∨
      ∃ u ∈ us, kv = (u.uid, { data := u.data, password := hash u.password }) := by
  induction us generalizing db with
  | nil => exact Or.inl h
  | cons u rest ih =>
      rw [seedUsers_cons] at h
      rcases ih _ h with h | ⟨v, hv, he⟩
      · rcases processUser_users_mem hash fails db u kv h with h | h
        · exact Or.inl h
        · exact Or.inr ⟨u, List.mem_cons_self _ _, h⟩
      · exact Or.inr ⟨v, List.mem_cons_of_mem _ hv, he⟩

theorem seedUsers_merchants_mem (hash : String → String) (fails : DbOp → Bool)
    (us : List SeedUser) (db : Firestore) (kv : String × UserDoc)
    (h : kv ∈ (seedUsers hash fails us db).1.merchants) :
    kv ∈ db.merchants ∨
      ∃ u ∈ us, u.role = "merchant" ∧
        kv = (u.uid, { data := u.data, password := hash u.password }) := by
  induction us generalizing db with
  | nil => exact Or.inl h
  | cons u rest ih =>
      rw [seedUsers_cons] at h
      rcases ih _ h with h | ⟨v, hv, he⟩
      · rcases processUser_merchants_mem hash fails db u kv h with h | ⟨hr, he⟩
        · exact Or.inl h
        · exact Or.inr ⟨u, List.mem_cons_self _ _, hr, he⟩
      · exact Or.inr ⟨v, List.mem_cons_of_mem _ hv, he⟩

theorem seedUsers_logs_emails (hash : String → String) (fails : DbOp → Bool)
    (us : List SeedUser) (db : Firestore) :
    ((seedUsers hash fails us db).2).map LogEntry.email =
      us.map SeedUser.email := by
  induction us generalizing db with
  | nil => rfl
  | cons u rest ih =>
      rw [seedUsers_cons]
      simp only [List.map_cons, processUser_log_email, ih]

/-! ## Facts about the fixed record list -/

theorem testUsers_data_email (now : Nat) (u : SeedUser)
    (hu : u ∈ testUsers now) : u.data.email = u.email := by
  simp only [testUsers, List.mem_cons, List.not_mem_nil, or_false] at hu
  rcases hu with h | h | h <;> subst h <;> rfl

theorem testUsers_uid_inj (now : Nat) (u v : SeedUser)
    (hu : u ∈ testUsers now) (hv : v ∈ testUsers now) (h : u.uid = v.uid) :
    u = v := by
  simp only [testUsers, List.mem_cons, List.not_mem_nil, or_false] at hu hv
  rcases hu with h1 | h1 | h1 <;> rcases hv with h2 | h2 | h2 <;>
    subst h1 <;> subst h2 <;> first | rfl | simp at h

theorem testUsers_email_inj (now : Nat) (u v : SeedUser)
    (hu : u ∈ testUsers now) (hv : v ∈ testUsers now)
    (h : u.data.email = v.data.email) : u = v := by
  simp only [testUsers, List.mem_cons, List.not_mem_nil, or_false] at hu hv
  rcases hu with h1 | h1 | h1 <;> rcases hv with h2 | h2 | h2 <;>
    subst h1 <;> subst h2 <;> first | rfl | simp at h

/-! ## The users-collection invariant -/

theorem nodup_all_eq_length_le_one {α : Type} (l : List α) (hnd : l.Nodup)
    (hall : ∀ a ∈ l, ∀ b ∈ l, a = b) : l.length ≤ 1 := by
  match l with
  | [] => simp
  | [a] => simp
  | a :: b :: rest =>
      exfalso
      have hab : a = b := hall a (by simp) b (by simp)
      subst hab
      simp [List.nodup_cons] at hnd

theorem storeInv_count (now : Nat) (db : Firestore) (h : storeInv now db)
    (e : String) :
    (db.users.filter (fun kv => kv.2.data.email == e)).length ≤ 1 := by
  have hsub : (db.users.filter (fun kv => kv.2.data.email == e)).Sublist
      db.users := List.filter_sublist _
  have hnd : ((db.users.filter (fun kv => kv.2.data.email == e)).map
      Prod.fst).Nodup := h.2.sublist (hsub.map Prod.fst)
  have hlen : (db.users.filter (fun kv => kv.2.data.email == e)).length =
      ((db.users.filter (fun kv => kv.2.data.email == e)).map
        Prod.fst).length := (List.length_map _ _).symm
  rw [hlen]
  apply nodup_all_eq_length_le_one _ hnd
  intro a ha b hb
  obtain ⟨kv1, hkv1, rfl⟩ := List.mem_map.mp ha
  obtain ⟨kv2, hkv2, rfl⟩ := List.mem_map.mp hb
  have h1 := List.mem_filter.mp hkv1
  have h2 := List.mem_filter.mp hkv2
  obtain ⟨u1, hu1, hk1, hd1⟩ := h.1 kv1 h1.1
  obtain ⟨u2, hu2, hk2, hd2⟩ := h.1 kv2 h2.1
  have he1 : u1.data.email = e := by rw [← hd1]; exact beq_iff_eq.mp h1.2
  have he2 : u2.data.email = e := by rw [← hd2]; exact beq_iff_eq.mp h2.2
  have hu12 : u1 = u2 :=
    testUsers_email_inj now u1 u2 hu1 hu2 (he1.trans he2.symm)
  rw [hk1, hk2, hu12]

theorem processUser_inv_preserve (hash : String → String) (fails : DbOp → Bool)
    (now : Nat) (db : Firestore) (u : SeedUser)
    (hdb : storeInv now db) (hu : u ∈ testUsers now) :
    storeInv now (processUser hash fails db u).1 ∧
      ∀ kv ∈ db.users, kv ∈ (processUser hash fails db u).1.users := by
  rcases processUser_users_cases hash fails db u with hc | ⟨hq, hc⟩
  · refine ⟨⟨?_, ?_⟩, ?_⟩
    · intro kv hm; exact hdb.1 kv (by rwa [hc] at hm)
    · rw [hc]; exact hdb.2
    · intro kv hm; rwa [hc]
  · have hnot : ∀ kv ∈ db.users, kv.1 ≠ u.uid := by
      intro kv hm heq
      obtain ⟨v, hv, hk, hd⟩ := hdb.1 kv hm
      have hv_eq : v = u := testUsers_uid_inj now v u hv hu (by rw [← hk, heq])
      have hemail : kv.2.data.email = u.email := by
        rw [hd, hv_eq]; exact testUsers_data_email now u hu
      have hmem : kv ∈ queryUsersByEmail db u.email := by
        simp [queryUsersByEmail, List.mem_filter, hm, hemail]
      rw [hq] at hmem
      cases hmem
    have happ : assocSet db.users u.uid
        { data := u.data, password := hash u.password } =
        db.users ++ [(u.uid, { data := u.data, password := hash u.password })] :=
      assocSet_of_not_key _ _ _ hnot
    refine ⟨⟨?_, ?_⟩, ?_⟩
    · intro kv hm
      rw [hc, happ] at hm
      rcases List.mem_append.mp hm with hm | hm
      · exact hdb.1 kv hm
      · have hkv : kv = (u.uid, { data := u.data, password := hash u.password }) := by
          simpa using hm
        exact ⟨u, hu, by rw [hkv], by rw [hkv]⟩
    · rw [hc, happ, List.map_append]
      refine List.Nodup.append hdb.2 (by simp) ?_
      intro a ha hb
      obtain ⟨kv, hkv, rfl⟩ := List.mem_map.mp ha
      have hbu : kv.1 = u.uid := by simpa using hb
      exact hnot kv hkv hbu
    · intro kv hm
      rw [hc, happ]
      exact List.mem_append_left _ hm

theorem seedUsers_inv_preserve (hash : String → String) (fails : DbOp → Bool)
    (now : Nat) (us : List SeedUser) (db : Firestore)
    (hus : ∀ u ∈ us, u ∈ testUsers now) (hdb : storeInv now db) :
    storeInv now (seedUsers hash fails us db).1 ∧
      ∀ kv ∈ db.users, kv ∈ (seedUsers hash fails us db).1.users := by
  induction us generalizing db with
  | nil => exact ⟨hdb, fun kv hm => hm⟩
  | cons u rest ih =>
      rw [seedUsers_cons]
      obtain ⟨h1, h2⟩ := processUser_inv_preserve hash fails now db u hdb
        (hus u (List.mem_cons_self _ _))
      obtain ⟨h3, h4⟩ := ih ((processUser hash fails db u).1)
        (fun v hv => hus v (List.mem_cons_of_mem _ hv)) h1
      exact ⟨h3, fun kv hm => h4 kv (h2 kv hm)⟩

theorem reachable_storeInv (now : Nat) (db : Firestore)
    (h : Reachable now db) : storeInv now db := by
  induction h with
  | empty =>
      refine ⟨fun kv hm => ?_, by simp [emptyStore]⟩
      simp [emptyStore] at hm
  | step hash fails db hr ih =>
      exact (seedUsers_inv_preserve hash fails now (testUsers now) db
        (fun u hu => hu) ih).1

/-! ## Claim theorems: seeder -/

/-- C1: seeding is idempotent.  Running `createTestUsers` twice from the
empty store with no operation failing (and arbitrary, possibly
different, hash outputs per run) leaves exactly one users-collection
document per fixture email: the second run returns the store of the
first run unchanged and reports already-exists for all three records.
More generally, every store reachable from the empty store by complete
seeder runs (any hash function and failure oracle each time) has at most
one document per email, and a further run never deletes or overwrites an
existing document, each write being guarded by the email-equality
existence check. -/
theorem seeder_idempotent (hash hash2 : String → String) (now : Nat) :
    (createTestUsers hash2 noFail now
        (createTestUsers hash noFail now emptyStore).1 =
      ((createTestUsers hash noFail now emptyStore).1,
       [LogEntry.alreadyExists "admin@eventnft.app",
        LogEntry.alreadyExists "merchant@eventnft.app",
        LogEntry.alreadyExists "user@eventnft.app"]) ∧
     (createTestUsers hash noFail now emptyStore).1.users.length = 3 ∧
     ∀ e ∈ (testUsers now).map SeedUser.email,
       ((createTestUsers hash noFail now emptyStore).1.users.filter
         (fun kv => kv.2.data.email == e)).length = 1) ∧
    (∀ db : Firestore, Reachable now db →
      (∀ e : String,
        (db.users.filter (fun kv => kv.2.data.email == e)).length ≤ 1) ∧
      (∀ (hash3 : String → String) (fails : DbOp → Bool),
        ∀ kv ∈ db.users, kv ∈ (createTestUsers hash3 fails now db).1.users)) := by
  constructor
  · refine ⟨?_, ?_, ?_⟩
    · simp [createTestUsers, seedUsers, processUser, queryUsersByEmail,
        testUsers, emptyStore, assocSet, noFail]
    · simp [createTestUsers, seedUsers, processUser, queryUsersByEmail,
        testUsers, emptyStore, assocSet, noFail]
    · intro e he
      simp only [testUsers, List.map_cons, List.map_nil, List.mem_cons,
        List.not_mem_nil, or_false] at he
      rcases he with h | h | h <;> subst h <;>
        simp [createTestUsers, seedUsers, processUser, queryUsersByEmail,
          testUsers, emptyStore, assocSet, noFail]
  · intro db hdb
    have hinv := reachable_storeInv now db hdb
    refine ⟨fun e => storeInv_count now db hinv e, ?_⟩
    intro hash3 fails kv hm
    exact (seedUsers_inv_preserve hash3 fails now (testUsers now) db
      (fun u hu => hu) hinv).2 kv hm

/-- Witness for the idempotence theorem at the identity hash, timestamp
0, the admin email and the (reachable) empty store. -/
theorem seeder_idempotent_witness :
    (createTestUsers id noFail 0
        (createTestUsers id noFail 0 emptyStore).1).1 =
      (createTestUsers id noFail 0 emptyStore).1 ∧
    ((createTestUsers id noFail 0 emptyStore).1.users.filter
      (fun kv => kv.2.data.email == "admin@eventnft.app")).length = 1 ∧
    (emptyStore.users.filter
      (fun kv => kv.2.data.email == "admin@eventnft.app")).length ≤ 1 :=
  ⟨by rw [(seeder_idempotent id id 0).1.1],
   (seeder_idempotent id id 0).1.2.2 "admin@eventnft.app" (by decide),
   ((seeder_idempotent id id 0).2 emptyStore Reachable.empty).1
     "admin@eventnft.app"⟩

/-- C2: password confidentiality.  For every starting store and failure
oracle, every document the seeder adds to the users or merchants
collection carries as its password field exactly the bcrypt hash of the
record plaintext computed with work factor 12; under the hypothesis that
these hashes differ from every fixture plaintext (bcrypt output is
modular-crypt formatted, fixture passwords are not), no document the
seeder writes ever stores a fixture plaintext password. -/
theorem password_confidentiality (bcryptHash : String → Nat → String)
    (fails : DbOp → Bool) (now : Nat) (db : Firestore)
    (hdist : ∀ u ∈ testUsers now, ∀ v ∈ testUsers now,
      bcryptHash u.password 12 ≠ v.password) :
    (∀ kv ∈ (createTestUsers (hashPassword bcryptHash) fails now db).1.users,
      kv ∈ db.users ∨
        ∃ u ∈ testUsers now, kv.2.password = bcryptHash u.password 12 ∧
          ∀ v ∈ testUsers now, kv.2.password ≠ v.password) ∧
    (∀ kv ∈ (createTestUsers (hashPassword bcryptHash) fails now db).1.merchants,
      kv ∈ db.merchants ∨
        ∃ u ∈ testUsers now, kv.2.password = bcryptHash u.password 12 ∧
          ∀ v ∈ testUsers now, kv.2.password ≠ v.password) := by
  constructor
  · intro kv hm
    rcases seedUsers_users_mem _ _ _ _ _ hm with h | ⟨u, hu, he⟩
    · exact Or.inl h
    · refine Or.inr ⟨u, hu, ?_, ?_⟩
      · rw [he]; rfl
      · intro v hv
        rw [he]
        exact hdist u hu v hv
  · intro kv hm
    rcases seedUsers_merchants_mem _ _ _ _ _ hm with h | ⟨u, hu, _, he⟩
    · exact Or.inl h
    · refine Or.inr ⟨u, hu, ?_, ?_⟩
      · rw [he]; rfl
      · intro v hv
        rw [he]
        exact hdist u hu v hv

/-- Witness for the password-confidentiality theorem at a concrete
modular-crypt-prefixed hash function, timestamp 0, the no-failure oracle
and the empty store. -/
theorem password_confidentiality_witness :
    (∀ u ∈ testUsers 0, ∀ v ∈ testUsers 0,
      (fun (p : String) (_ : Nat) => "$2a$12$" ++ p) u.password 12 ≠ v.password) ∧
    (∀ kv ∈ (createTestUsers
        (hashPassword (fun (p : String) (_ : Nat) => "$2a$12$" ++ p))
        noFail 0 emptyStore).1.users,
      kv ∈ emptyStore.users ∨
        ∃ u ∈ testUsers 0,
          kv.2.password =
            (fun (p : String) (_ : Nat) => "$2a$12$" ++ p) u.password 12 ∧
          ∀ v ∈ testUsers 0, kv.2.password ≠ v.password) :=
  ⟨by decide,
   (password_confidentiality (fun (p : String) (_ : Nat) => "$2a$12$" ++ p)
     noFail 0 emptyStore (by decide)).1⟩

/-- C3: role-conditional duplication.  In a failure-free run from the
empty store the merchants collection receives exactly one document, at
the merchant record uid, and it is identical to the users-collection
document stored at the same key; in full generality (any store, any
failure oracle) every document the run adds to the merchants collection
comes from a record whose role is merchant, and the only such record is
the one with uid merchant-user-001 — records with role admin or user
never produce a merchants-collection entry. -/
theorem merchant_role_mirroring (hash : String → String) (now : Nat) :
    ((createTestUsers hash noFail now emptyStore).1.merchants.map Prod.fst =
        ["merchant-user-001"] ∧
      ∀ kv ∈ (createTestUsers hash noFail now emptyStore).1.merchants,
        assocLookup (createTestUsers hash noFail now emptyStore).1.users kv.1 =
          some kv.2) ∧
    (∀ (fails : DbOp → Bool) (db : Firestore),
      ∀ kv ∈ (createTestUsers hash fails now db).1.merchants,
        kv ∈ db.merchants ∨
          ∃ u ∈ testUsers now, u.role = "merchant" ∧
            kv = (u.uid, { data := u.data, password := hash u.password })) ∧
    (∀ u ∈ testUsers now, u.role = "merchant" → u.uid = "merchant-user-001") := by
  refine ⟨⟨?_, ?_⟩, ?_, ?_⟩
  · simp [createTestUsers, seedUsers, processUser, queryUsersByEmail,
      testUsers, emptyStore, assocSet, noFail]
  · intro kv hm
    simp [createTestUsers, seedUsers, processUser, queryUsersByEmail,
      testUsers, emptyStore, assocSet, noFail] at hm
    subst hm
    simp [createTestUsers, seedUsers, processUser, queryUsersByEmail,
      testUsers, emptyStore, assocSet, noFail, assocLookup]
  · intro fails db kv hm
    exact seedUsers_merchants_mem _ _ _ _ _ hm
  · intro u hu hrole
    simp only [testUsers, List.mem_cons, List.not_mem_nil, or_false] at hu
    rcases hu with h | h | h <;> subst h <;> first | rfl | simp at hrole

/-- Witness for the merchant-mirroring theorem: the identity hash,
timestamp 0, and the concrete mirrored document of the failure-free run
from the empty store. -/
theorem merchant_role_mirroring_witness :
    (createTestUsers id noFail 0 emptyStore).1.merchants.map Prod.fst =
      ["merchant-user-001"] ∧
    assocLookup (createTestUsers id noFail 0 emptyStore).1.users
        "merchant-user-001" =
      some (UserDoc.mk
        (UserData.mk "merchant-user-001" "merchant@eventnft.app" "merchant"
          "MERCHANT_WALLET_ADDRESS" none none (some "Music Festival Co.")
          (some "Entertainment") (some "Leading music festival organizer")
          (some true) (some "merchant-user-001") 0)
        "Merchant123!") :=
  ⟨(merchant_role_mirroring id 0).1.1,
   (merchant_role_mirroring id 0).1.2
     ("merchant-user-001",
      UserDoc.mk
        (UserData.mk "merchant-user-001" "merchant@eventnft.app" "merchant"
          "MERCHANT_WALLET_ADDRESS" none none (some "Music Festival Co.")
          (some "Entertainment") (some "Leading music festival organizer")
          (some true) (some "merchant-user-001") 0)
        "Merchant123!") (by decide)⟩

/-- C4: partial-failure isolation.  For every failure oracle and store,
every record produces exactly one log line carrying that record email,
in input order — so a caught failure in one record never prevents the
following records from being processed — and the main routine finishes
with exit code 0 whatever the per-record outcomes.  Concretely, when the
users-collection write of the first record fails, the second and third
records are still attempted and persisted. -/
theorem partial_failure_isolation (hash : String → String) (now : Nat) :
    (∀ (fails : DbOp → Bool) (db : Firestore) (env : List (String × String)),
      ((createTestUsers hash fails now db).2).map LogEntry.email =
        (testUsers now).map SeedUser.email ∧
      (main hash fails now db env).exitCode = 0) ∧
    ((createTestUsers hash failFirstWrite now emptyStore).2 =
      [LogEntry.failed "admin@eventnft.app",
       LogEntry.created "merchant" "merchant@eventnft.app",
       LogEntry.created "user" "user@eventnft.app"] ∧
     (createTestUsers hash failFirstWrite now emptyStore).1.users.map Prod.fst =
       ["merchant-user-001", "regular-user-001"]) := by
  constructor
  · intro fails db env
    exact ⟨seedUsers_logs_emails hash fails (testUsers now) db, rfl⟩
  · constructor <;>
      simp [createTestUsers, seedUsers, processUser, queryUsersByEmail,
        testUsers, emptyStore, assocSet, failFirstWrite]

/-! ## Claim theorems: bootstrap, report, mirror gap -/

/-- C8: exit-code discipline of the whole run.  If the merged
configuration lacks `FIREBASE_PRIVATE_KEY` (the script itself then
throws on `.replace`), or the external credential/connection check
rejects the supplied credentials, the process exits with code 1 with the
store untouched and no seeding log; if the bootstrap succeeds the run is
exactly the main routine, which exits 0 (all per-record failures being
caught). -/
theorem bootstrap_exit_codes (envFile : Option String)
    (ambient : List (String × String))
    (certOk : Option String → Option String → String → Bool)
    (hash : String → String) (fails : DbOp → Bool) (now : Nat)
    (db : Firestore) :
    (assocLookup (mergeEnv ambient (loadEnvFile envFile).1)
        "FIREBASE_PRIVATE_KEY" = none →
      runScript envFile ambient certOk hash fails now db =
        { exitCode := 1, db := db, logs := [], output := [] }) ∧
    (∀ pk, assocLookup (mergeEnv ambient (loadEnvFile envFile).1)
        "FIREBASE_PRIVATE_KEY" = some pk →
      certOk (assocLookup (mergeEnv ambient (loadEnvFile envFile).1)
          "FIREBASE_PROJECT_ID")
        (assocLookup (mergeEnv ambient (loadEnvFile envFile).1)
          "FIREBASE_CLIENT_EMAIL")
        (String.mk (unescapeNewlines pk.toList)) = false →
      runScript envFile ambient certOk hash fails now db =
        { exitCode := 1, db := db, logs := [], output := [] }) ∧
    (∀ pk, assocLookup (mergeEnv ambient (loadEnvFile envFile).1)
        "FIREBASE_PRIVATE_KEY" = some pk →
      certOk (assocLookup (mergeEnv ambient (loadEnvFile envFile).1)
          "FIREBASE_PROJECT_ID")
        (assocLookup (mergeEnv ambient (loadEnvFile envFile).1)
          "FIREBASE_CLIENT_EMAIL")
        (String.mk (unescapeNewlines pk.toList)) = true →
      runScript envFile ambient certOk hash fails now db =
        main hash fails now db (mergeEnv ambient (loadEnvFile envFile).1) ∧
      (runScript envFile ambient certOk hash fails now db).exitCode = 0) := by
  refine ⟨?_, ?_, ?_⟩
  · intro h
    simp [runScript, h]
  · intro pk h1 h2
    simp only [String.toList] at h2
    simp [runScript, h1, h2]
  · intro pk h1 h2
    simp only [String.toList] at h2
    constructor
    · simp [runScript, h1, h2]
    · simp [runScript, h1, h2, main]

/-- Witness for the exit-code theorem: a run without any private key
exits 1; with a key and an accepting check it exits 0; with a key and a
rejecting check it exits 1. -/
theorem bootstrap_exit_codes_witness :
    runScript none [] (fun _ _ _ => true) id noFail 0 emptyStore =
      { exitCode := 1, db := emptyStore, logs := [], output := [] } ∧
    (runScript none [("FIREBASE_PRIVATE_KEY", "k")] (fun _ _ _ => true) id
      noFail 0 emptyStore).exitCode = 0 ∧
    runScript none [("FIREBASE_PRIVATE_KEY", "k")] (fun _ _ _ => false) id
      noFail 0 emptyStore =
      { exitCode := 1, db := emptyStore, logs := [], output := [] } :=
  ⟨(bootstrap_exit_codes none [] (fun _ _ _ => true) id noFail 0
      emptyStore).1 rfl,
   ((bootstrap_exit_codes none [("FIREBASE_PRIVATE_KEY", "k")]
      (fun _ _ _ => true) id noFail 0 emptyStore).2.2 "k" (by decide) rfl).2,
   (bootstrap_exit_codes none [("FIREBASE_PRIVATE_KEY", "k")]
      (fun _ _ _ => false) id noFail 0 emptyStore).2.1 "k" (by decide) rfl⟩

/-- C9 counterexample: when `ADMIN_MASTER_KEY` is present in the
configuration but equal to the empty string, the report still prints the
literal default `admin123` — so the fallback is not taken exactly when
the entry is unset, as the claim states, but also when it is set to the
empty string (JavaScript `||` treats the empty string as falsy). -/
theorem admin_key_fallback_counterexample :
    assocLookup [("ADMIN_MASTER_KEY", "")] "ADMIN_MASTER_KEY" = some "" ∧
    adminMasterKeyShown [("ADMIN_MASTER_KEY", "")] = "admin123" ∧
    ("   Admin Key: " ++ adminMasterKeyShown [("ADMIN_MASTER_KEY", "")]) ∈
      displayCredentials [("ADMIN_MASTER_KEY", "")] := by
  refine ⟨rfl, rfl, ?_⟩
  simp [displayCredentials]

/-- C9 amended: after seeding the main routine always emits the
credential report, which lists the three roles' login emails, plaintext
passwords and front-end URLs, plus the admin secondary key line; the
printed admin key is the configured `ADMIN_MASTER_KEY` whenever that
entry is set to a nonempty value, and the literal default `admin123`
exactly when the entry is unset or set to the empty string. -/
theorem credential_report (env : List (String × String))
    (hash : String → String) (fails : DbOp → Bool) (now : Nat)
    (db : Firestore) :
    (main hash fails now db env).output = displayCredentials env ∧
    "   Email: admin@eventnft.app" ∈ displayCredentials env ∧
    "   Password: Admin123!" ∈ displayCredentials env ∧
    "   URL: http://localhost:3000/auth/admin\n" ∈ displayCredentials env ∧
    "   Email: merchant@eventnft.app" ∈ displayCredentials env ∧
    "   Password: Merchant123!" ∈ displayCredentials env ∧
    "   URL: http://localhost:3000/auth/merchant\n" ∈ displayCredentials env ∧
    "   Email: user@eventnft.app" ∈ displayCredentials env ∧
    "   Password: User123!" ∈ displayCredentials env ∧
    "   URL: http://localhost:3000/auth/user\n" ∈ displayCredentials env ∧
    ("   Admin Key: " ++ adminMasterKeyShown env) ∈ displayCredentials env ∧
    (∀ v, assocLookup env "ADMIN_MASTER_KEY" = some v → v ≠ "" →
      adminMasterKeyShown env = v) ∧
    ((assocLookup env "ADMIN_MASTER_KEY" = none ∨
      assocLookup env "ADMIN_MASTER_KEY" = some "") →
      adminMasterKeyShown env = "admin123") := by
  refine ⟨rfl, by simp [displayCredentials], by simp [displayCredentials],
    by simp [displayCredentials], by simp [displayCredentials],
    by simp [displayCredentials], by simp [displayCredentials],
    by simp [displayCredentials], by simp [displayCredentials],
    by simp [displayCredentials], by simp [displayCredentials], ?_, ?_⟩
  · intro v hv hne
    simp [adminMasterKeyShown, hv, beq_iff_eq, hne]
  · intro h
    rcases h with h | h <;> simp [adminMasterKeyShown, h]

/-- Witness for the credential-report theorem: a configuration with a
nonempty admin key prints it, and the empty configuration prints the
default. -/
theorem credential_report_witness :
    (main id noFail 0 emptyStore [("ADMIN_MASTER_KEY", "secret")]).output =
      displayCredentials [("ADMIN_MASTER_KEY", "secret")] ∧
    adminMasterKeyShown [("ADMIN_MASTER_KEY", "secret")] = "secret" ∧
    adminMasterKeyShown [] = "admin123" :=
  ⟨(credential_report [("ADMIN_MASTER_KEY", "secret")] id noFail 0
      emptyStore).1,
   (credential_report [("ADMIN_MASTER_KEY", "secret")] id noFail 0
      emptyStore).2.2.2.2.2.2.2.2.2.2.2.1 "secret" rfl (by decide),
   (credential_report [] id noFail 0 emptyStore).2.2.2.2.2.2.2.2.2.2.2.2
     (Or.inl rfl)⟩

/-- C10: the merchant-mirror gap.  The pre-write existence check depends
only on the users collection (stores with equal users collections give
equal query results, whatever their merchants collections hold).
Consequently, in a run where the merchant record's users-collection
write succeeds but its merchants-collection mirror write fails, the
record is logged as failed while its users document persists and the
merchants collection stays empty; every later failure-free run — after
one rerun and, by iteration, any number of reruns, with any hash — skips
all three records as already existing and never creates the missing
merchants document. -/
theorem merchant_mirror_gap (hash hash2 : String → String) (now : Nat) :
    ((createTestUsers hash failMerchantMirror now emptyStore).1.merchants = [] ∧
     (createTestUsers hash failMerchantMirror now emptyStore).2 =
       [LogEntry.created "admin" "admin@eventnft.app",
        LogEntry.failed "merchant@eventnft.app",
        LogEntry.created "user" "user@eventnft.app"] ∧
     (∃ d, assocLookup
        (createTestUsers hash failMerchantMirror now emptyStore).1.users
        "merchant-user-001" = some d) ∧
     createTestUsers hash2 noFail now
        (createTestUsers hash failMerchantMirror now emptyStore).1 =
       ((createTestUsers hash failMerchantMirror now emptyStore).1,
        [LogEntry.alreadyExists "admin@eventnft.app",
         LogEntry.alreadyExists "merchant@eventnft.app",
         LogEntry.alreadyExists "user@eventnft.app"]) ∧
     ∀ n : Nat,
       (Nat.iterate (rerunStore hash2 now) n
         (createTestUsers hash failMerchantMirror now emptyStore).1).merchants =
         []) ∧
    (∀ (dbA dbB : Firestore) (e : String), dbA.users = dbB.users →
      queryUsersByEmail dbA e = queryUsersByEmail dbB e) := by
  have hrun2 : createTestUsers hash2 noFail now
      (createTestUsers hash failMerchantMirror now emptyStore).1 =
      ((createTestUsers hash failMerchantMirror now emptyStore).1,
       [LogEntry.alreadyExists "admin@eventnft.app",
        LogEntry.alreadyExists "merchant@eventnft.app",
        LogEntry.alreadyExists "user@eventnft.app"]) := by
    simp [createTestUsers, seedUsers, processUser, queryUsersByEmail,
      testUsers, emptyStore, assocSet, noFail, failMerchantMirror]
  refine ⟨⟨?_, ?_, ?_, hrun2, ?_⟩, ?_⟩
  · simp [createTestUsers, seedUsers, processUser, queryUsersByEmail,
      testUsers, emptyStore, assocSet, failMerchantMirror]
  · simp [createTestUsers, seedUsers, processUser, queryUsersByEmail,
      testUsers, emptyStore, assocSet, failMerchantMirror]
  · simp [createTestUsers, seedUsers, processUser, queryUsersByEmail,
      testUsers, emptyStore, assocSet, failMerchantMirror, assocLookup]
  · intro n
    have hfix : rerunStore hash2 now
        (createTestUsers hash failMerchantMirror now emptyStore).1 =
        (createTestUsers hash failMerchantMirror now emptyStore).1 := by
      unfold rerunStore
      rw [hrun2]
    rw [Function.iterate_fixed hfix n]
    simp [createTestUsers, seedUsers, processUser, queryUsersByEmail,
      testUsers, emptyStore, assocSet, failMerchantMirror]
  · intro dbA dbB e h
    unfold queryUsersByEmail
    rw [h]

/-- Witness for the mirror-gap theorem: the concrete failed-mirror run
with the identity hash, and the query-independence instance comparing
the empty store with a store that differs only in its merchants
collection. -/
theorem merchant_mirror_gap_witness :
    (createTestUsers id failMerchantMirror 0 emptyStore).1.merchants = [] ∧
    queryUsersByEmail emptyStore "admin@eventnft.app" =
      queryUsersByEmail
        { users := [],
          merchants := (createTestUsers id noFail 0 emptyStore).1.merchants }
        "admin@eventnft.app" :=
  ⟨(merchant_mirror_gap id id 0).1.1,
   (merchant_mirror_gap id id 0).2 emptyStore
     { users := [],
       merchants := (createTestUsers id noFail 0 emptyStore).1.merchants }
     "admin@eventnft.app" rfl⟩

end SetupTestUsers
